import Mathlib

/-!
Shallow embedding of the schema-normalization core of the Time repository
(src/utils.py: process_data, extract_year_week, parse_iso_week, sort_iso_weeks)
together with proofs settling the frozen claims about its specification.

Python strings are modelled as Lean `String`/`List Char`; Python `datetime`
values are modelled by their proleptic-Gregorian ordinal (days since 0001-01-01,
ordinal 1) together with hour/minute/second fields; the pandas permissive date
parser (`pd.to_datetime` without an explicit format, i.e. dateutil) is an
external library and is modelled as an explicit function parameter `guess` of
the pipeline; randomness (np.random.randint) is modelled as a stream parameter
`g : Nat → Nat` whose draws are reduced mod 19 into the interval [1, 20).
-/

namespace TT

/-! ## Calendar arithmetic (model of Python datetime/date) -/

def isLeap (y : Nat) : Bool := (y % 4 == 0 && y % 100 != 0) || y % 400 == 0

/-- Cumulative days before month `m` (1-based) in a non-leap year. -/
def daysBeforeMonth (m : Nat) : Nat :=
  [0, 31, 59, 90, 120, 151, 181, 212, 243, 273, 304, 334].getD (m - 1) 0

def daysInMonth (y m : Nat) : Nat :=
  if m = 2 then (if isLeap y then 29 else 28)
  else [31, 28, 31, 30, 31, 30, 31, 31, 30, 31, 30, 31].getD (m - 1) 31

/-- Day-of-year of y-m-d, 1-based. -/
def dayOfYear (y m d : Nat) : Nat :=
  daysBeforeMonth m + (if 2 < m ∧ isLeap y then 1 else 0) + d

/-- Number of leap years among years 1..a. -/
def leapsUpTo (a : Nat) : Nat := a / 4 - a / 100 + a / 400

/-- Proleptic Gregorian ordinal of y-m-d; `toOrdinal 1 1 1 = 1`,
matching Python `date.toordinal`. -/
def toOrdinal (y m d : Nat) : Nat :=
  365 * (y - 1) + leapsUpTo (y - 1) + dayOfYear y m d

/-- Ordinal of 9999-12-31, the largest Python `date`. -/
def maxOrdinal : Nat := 3652059

/-- Python `date.weekday()`: Monday = 0, ..., Sunday = 6. -/
def pyWeekday (o : Nat) : Nat := (o - 1) % 7

/-- Sunday-based weekday: Sunday = 0, ..., Saturday = 6. -/
def sunWeekday (o : Nat) : Nat := o % 7

/-- Week number under strftime %U (Sunday-start week of year): days before the
first Sunday of the year are week 0. `doy` is the 1-based day of year. -/
def weekU (y doy : Nat) : Nat :=
  let fwSun := toOrdinal y 1 1 % 7
  let s1 := 1 + (7 - fwSun) % 7
  if doy < s1 then 0 else (doy - s1) / 7 + 1

/-- Ordinal of the Monday starting ISO week 1 of year `y`
(model of CPython `_isoweek1monday`). -/
def isoWeek1Monday (y : Nat) : Int :=
  let fd : Int := toOrdinal y 1 1
  let fwd := (fd + 6) % 7
  let wm := fd - fwd
  if 3 < fwd then wm + 7 else wm

/-- ISO-8601 week number of the date with ordinal `o` lying in calendar year
`y` (model of Python `date.isocalendar()[1]`, also strftime %V). -/
def isoWeekNum (y o : Nat) : Nat :=
  let w1 := isoWeek1Monday y
  let week := ((o : Int) - w1).fdiv 7
  let week2 :=
    if week < 0 then ((o : Int) - isoWeek1Monday (y - 1)).fdiv 7
    else if 52 ≤ week ∧ isoWeek1Monday (y + 1) ≤ (o : Int) then 0
    else week
  (week2 + 1).toNat

/-- Zero-padded two-digit decimal rendering (Python format spec 02d). -/
def pad2 (n : Nat) : String :=
  if n < 10 then "0" ++ toString n else toString n

/-- Model of a Python datetime: Gregorian date plus time of day. -/
structure PyDT where
  year : Nat
  month : Nat
  day : Nat
  hour : Nat
  minute : Nat
  second : Nat
deriving DecidableEq, Repr

def PyDT.ordinal (t : PyDT) : Nat := toOrdinal t.year t.month t.day

def PyDT.totalSeconds (t : PyDT) : Nat :=
  ((t.ordinal - 1) * 1440 + t.hour * 60 + t.minute) * 60 + t.second

/-- strftime of a datetime with format "%Y-W%U". -/
def strftimeYWU (t : PyDT) : String :=
  toString t.year ++ "-W" ++ pad2 (weekU t.year (dayOfYear t.year t.month t.day))

/-- strftime of a datetime with format "%Y-W%V". -/
def strftimeYWV (t : PyDT) : String :=
  toString t.year ++ "-W" ++ pad2 (isoWeekNum t.year t.ordinal)

/-- Python `datetime(year, month, day)` as an ordinal, validating ranges the
way the constructor does (raising = `none`). -/
def mkDate (y m d : Nat) : Option Nat :=
  if 1 ≤ y ∧ y ≤ 9999 ∧ 1 ≤ m ∧ m ≤ 12 ∧ 1 ≤ d ∧ d ≤ daysInMonth y m then
    some (toOrdinal y m d)
  else none

/-! ## Character and string helpers -/

def digitVal (c : Char) : Nat := c.toNat - 48

/-- Whitespace stripped by Python `int()` / `str.strip()`. -/
def isPySpace (c : Char) : Bool :=
  c = ' ' || c = '\t' || c = '\n' || c = '\r' || c = '\x0b' || c = '\x0c'

def stripSpaces (cs : List Char) : List Char :=
  ((cs.dropWhile isPySpace).reverse.dropWhile isPySpace).reverse

/-- Digit run with Python underscore grouping rules: nonempty, starts with a
digit, single underscores only between digits. Accumulates the value. -/
def pyDigitsAux (acc : Nat) : List Char → Option Nat
  | [] => some acc
  | c :: rest =>
    if c.isDigit then pyDigitsAux (acc * 10 + digitVal c) rest
    else if c = '_' then
      match rest with
      | [] => none
      | d :: rest2 =>
        if d.isDigit then pyDigitsAux (acc * 10 + digitVal d) rest2 else none
    else none

def pyDigits : List Char → Option Nat
  | [] => none
  | c :: rest => if c.isDigit then pyDigitsAux (digitVal c) rest else none

/-- Model of Python `int(s)` on a string: optional surrounding whitespace,
optional sign, decimal digits with underscore grouping. -/
def pyIntOf (cs : List Char) : Option Int :=
  match stripSpaces cs with
  | [] => none
  | c :: rest =>
    if c = '+' then (pyDigits rest).map Int.ofNat
    else if c = '-' then (pyDigits rest).map (fun n => -(n : Int))
    else (pyDigits (c :: rest)).map Int.ofNat

/-- Model of Python `s.split(sep)` for the two-character separator `[a, b]`. -/
def split2 (a b : Char) : List Char → List (List Char)
  | [] => [[]]
  | [c] => [[c]]
  | c :: d :: rest =>
    if c = a ∧ d = b then [] :: split2 a b rest
    else
      match split2 a b (d :: rest) with
      | [] => [[c]]
      | p :: ps => (c :: p) :: ps

/-- Does the two-character sequence `[a, b]` occur in the list? -/
def containsPair (a b : Char) : List Char → Bool
  | [] => false
  | [_] => false
  | c :: d :: rest => (c = a && d = b) || containsPair a b (d :: rest)

def lowerStr (s : String) : String := String.mk (s.toList.map Char.toLower)

/-- Is `needle` a contiguous sublist of `hay` (Python `needle in hay`)? -/
def containsSub (needle : List Char) : List Char → Bool
  | [] => needle.isEmpty
  | c :: rest => needle.isPrefixOf (c :: rest) || containsSub needle rest

/-- Python substring test on strings: `a in b`. -/
def subOf (a b : String) : Bool := containsSub a.toList b.toList

/-- Base-10 digits of `n`, most significant first, fuel-driven so that the
kernel can evaluate it. -/
def digitCharOf (n : Nat) : Char :=
  ['0', '1', '2', '3', '4', '5', '6', '7', '8', '9'].getD n '0'

def numToDigitsAux : Nat → Nat → List Char
  | 0, _ => []
  | fuel + 1, n =>
    if n < 10 then [digitCharOf n]
    else numToDigitsAux fuel (n / 10) ++ [digitCharOf (n % 10)]

def numToDigits (n : Nat) : List Char := numToDigitsAux (n + 1) n

/-! ## parse_iso_week (src/utils.py lines 427-462) -/

/-- Model of `datetime.strptime(f"{year}-{week}-1", "%Y-%W-%w")`, returning the
ordinal of the parsed date. The %Y directive matches exactly four digits, so
the year must render as four characters; %W matches 0..53; the day-of-week
value 1 selects Monday of the Monday-start (%W) week; a week-0 date before
January 1 borrows from the previous year; an out-of-range result raises. -/
def strptimeYWw (year week : Int) : Option Nat :=
  if 1000 ≤ year ∧ year ≤ 9999 ∧ 0 ≤ week ∧ week ≤ 53 then
    let y := year.toNat
    let w := week.toNat
    let j1 := toOrdinal y 1 1
    let fw := (j1 - 1) % 7
    let o : Int := if w = 0 then (j1 : Int) - (fw : Int)
      else ((j1 + (7 - fw) % 7 + 7 * (w - 1) : Nat) : Int)
    if 1 ≤ o ∧ o ≤ (maxOrdinal : Int) then some o.toNat else none
  else none

/-- Fallback branch of parse_iso_week: model of
`re.search(r"(\d{4}).*?(\d{1,2})", s)`, returning (year, week). The lazy gap
may not cross a newline; the trailing group greedily takes two digits. -/
def lazyWeekDigits : List Char → Option Nat
  | [] => none
  | c :: rest =>
    if c.isDigit then
      match rest with
      | d :: _ => if d.isDigit then some (digitVal c * 10 + digitVal d) else some (digitVal c)
      | [] => some (digitVal c)
    else if c = '\n' then none
    else lazyWeekDigits rest

def grab4Digits : List Char → Option (Nat × List Char)
  | a :: b :: c :: d :: rest =>
    if a.isDigit && b.isDigit && c.isDigit && d.isDigit then
      some (((digitVal a * 10 + digitVal b) * 10 + digitVal c) * 10 + digitVal d, rest)
    else none
  | _ => none

def searchYW : List Char → Option (Nat × Nat)
  | [] => none
  | c :: rest =>
    match grab4Digits (c :: rest) with
    | some (y, tail) =>
      match lazyWeekDigits tail with
      | some w => some (y, w)
      | none => searchYW rest
    | none => searchYW rest

/-- parse_iso_week from src/utils.py: parses an ISO-week-like label to the
first day of the week (as a date ordinal), or `none` on any failure. Note the
`'W' in s` test is checked before the `'_W' in s` test, so any label containing
the character W takes the `split("-W")` branch. -/
def parse_iso_week (s : String) : Option Nat :=
  if s.toList.contains 'W' then
    match split2 '-' 'W' s.toList with
    | [ys, ws] =>
      match pyIntOf ys, pyIntOf ws with
      | some y, some w => strptimeYWw y w
      | _, _ => none
    | _ => none
  else if containsPair '_' 'W' s.toList then
    match split2 '_' 'W' s.toList with
    | [ys, ws] =>
      match pyIntOf ys, pyIntOf ws with
      | some y, some w => strptimeYWw y w
      | _, _ => none
    | _ => none
  else
    match searchYW s.toList with
    | some (y, w) => strptimeYWw (y : Int) (w : Int)
    | none => none

/-! ## sort_iso_weeks (src/utils.py lines 464-476) -/

/-- Comparison used to model Python `sorted(..., key=lambda x: x[1])` on
(label, parsed-date) pairs that all carry `some` dates. -/
def weekPairLe (p q : String × Option Nat) : Bool :=
  Nat.ble (p.2.getD 0) (q.2.getD 0)

/-- Stable insertion used to model Python's stable sort. -/
def insertLe (le : α → α → Bool) (x : α) : List α → List α
  | [] => [x]
  | y :: ys => if le x y then x :: y :: ys else y :: insertLe le x ys

def sortLe (le : α → α → Bool) (l : List α) : List α := l.foldr (insertLe le) []

/-- sort_iso_weeks from src/utils.py: pair each label with its parsed date,
drop the unparseable ones, sort by date, return the labels. -/
def sort_iso_weeks (weeks : List String) : List String :=
  let week_dates := weeks.map (fun w => (w, parse_iso_week w))
  let kept := week_dates.filter (fun p => p.2.isSome)
  (sortLe weekPairLe kept).map Prod.fst

/-! ## strptime with the explicit formats of process_data (lines 84-91) -/

/-- Try each pre-matched alternative in order, backtracking through the
continuation; models regex alternation as compiled by CPython strptime. -/
def tryAlts (alts : List (Nat × List Char)) (k : Nat → List Char → Option α) : Option α :=
  match alts with
  | [] => none
  | (v, r) :: more =>
    match k v r with
    | some x => some x
    | none => tryAlts more k

def twoDig (p1 p2 : Char → Bool) : List Char → Option (Nat × List Char)
  | a :: b :: rest => if p1 a && p2 b then some (digitVal a * 10 + digitVal b, rest) else none
  | _ => none

def oneDig (p : Char → Bool) : List Char → Option (Nat × List Char)
  | a :: rest => if p a then some (digitVal a, rest) else none
  | _ => none

def isDigit19 (c : Char) : Bool := c.isDigit && c != '0'

/-- Alternatives for %d: 3[01] | [12]\d | 0[1-9] | [1-9]. -/
def altD (cs : List Char) : List (Nat × List Char) :=
  [twoDig (· == '3') (fun c => c == '0' || c == '1') cs,
   twoDig (fun c => c == '1' || c == '2') Char.isDigit cs,
   twoDig (· == '0') isDigit19 cs,
   oneDig isDigit19 cs].filterMap id

/-- Alternatives for %m: 1[0-2] | 0[1-9] | [1-9]. -/
def altM (cs : List Char) : List (Nat × List Char) :=
  [twoDig (· == '1') (fun c => c == '0' || c == '1' || c == '2') cs,
   twoDig (· == '0') isDigit19 cs,
   oneDig isDigit19 cs].filterMap id

/-- Alternatives for %H: 2[0-3] | [01]\d | \d. -/
def altH (cs : List Char) : List (Nat × List Char) :=
  [twoDig (· == '2') (fun c => c == '0' || c == '1' || c == '2' || c == '3') cs,
   twoDig (fun c => c == '0' || c == '1') Char.isDigit cs,
   oneDig Char.isDigit cs].filterMap id

def isDigit05 (c : Char) : Bool := c.isDigit && c.toNat ≤ 53

/-- Alternatives for %M: [0-5]\d | \d. -/
def altMin (cs : List Char) : List (Nat × List Char) :=
  [twoDig isDigit05 Char.isDigit cs, oneDig Char.isDigit cs].filterMap id

/-- Alternatives for %S: 6[01] | [0-5]\d | \d. -/
def altS (cs : List Char) : List (Nat × List Char) :=
  [twoDig (· == '6') (fun c => c == '0' || c == '1') cs,
   twoDig isDigit05 Char.isDigit cs,
   oneDig Char.isDigit cs].filterMap id

/-- Exactly four digits for %Y. -/
def alt4Y (cs : List Char) : List (Nat × List Char) :=
  match cs with
  | a :: b :: c :: d :: rest =>
    if a.isDigit && b.isDigit && c.isDigit && d.isDigit then
      [(((digitVal a * 10 + digitVal b) * 10 + digitVal c) * 10 + digitVal d, rest)]
    else []
  | _ => []

inductive FTok where
  | dd | mm | y4 | hh | mi | ss | lit (c : Char)
deriving DecidableEq, Repr

structure DTParts where
  year : Nat
  month : Nat
  day : Nat
  hour : Nat
  minute : Nat
  second : Nat
deriving DecidableEq, Repr

/-- strptime defaults: year 1900, month 1, day 1. -/
def initParts : DTParts := ⟨1900, 1, 1, 0, 0, 0⟩

def runToks : List FTok → List Char → DTParts → Option DTParts
  | [], [], st => some st
  | [], _ :: _, _ => none
  | .lit c :: ts, cs, st =>
    match cs with
    | c2 :: rest => if c2 == c then runToks ts rest st else none
    | [] => none
  | .dd :: ts, cs, st => tryAlts (altD cs) (fun v rest => runToks ts rest { st with day := v })
  | .mm :: ts, cs, st => tryAlts (altM cs) (fun v rest => runToks ts rest { st with month := v })
  | .y4 :: ts, cs, st => tryAlts (alt4Y cs) (fun v rest => runToks ts rest { st with year := v })
  | .hh :: ts, cs, st => tryAlts (altH cs) (fun v rest => runToks ts rest { st with hour := v })
  | .mi :: ts, cs, st => tryAlts (altMin cs) (fun v rest => runToks ts rest { st with minute := v })
  | .ss :: ts, cs, st => tryAlts (altS cs) (fun v rest => runToks ts rest { st with second := v })

/-- Validation performed when strptime builds the datetime object. -/
def partsToDT (p : DTParts) : Option PyDT :=
  if 1 ≤ p.year ∧ p.year ≤ 9999 ∧ 1 ≤ p.month ∧ p.month ≤ 12 ∧
     1 ≤ p.day ∧ p.day ≤ daysInMonth p.year p.month then
    some ⟨p.year, p.month, p.day, p.hour, p.minute, p.second⟩
  else none

def strptimeFmt (toks : List FTok) (s : String) : Option PyDT :=
  (runToks toks s.toList initParts).bind partsToDT

def fmtDMYslashHM : List FTok :=
  [.dd, .lit '/', .mm, .lit '/', .y4, .lit ' ', .hh, .lit ':', .mi]

def fmtMDYslashHM : List FTok :=
  [.mm, .lit '/', .dd, .lit '/', .y4, .lit ' ', .hh, .lit ':', .mi]

def fmtDMYdashHM : List FTok :=
  [.dd, .lit '-', .mm, .lit '-', .y4, .lit ' ', .hh, .lit ':', .mi]

def fmtYMDdashHMS : List FTok :=
  [.y4, .lit '-', .mm, .lit '-', .dd, .lit ' ', .hh, .lit ':', .mi, .lit ':', .ss]

def fmtDMYslashHMS : List FTok :=
  [.dd, .lit '/', .mm, .lit '/', .y4, .lit ' ', .hh, .lit ':', .mi, .lit ':', .ss]

def fmtMDYslashHMS : List FTok :=
  [.mm, .lit '/', .dd, .lit '/', .y4, .lit ' ', .hh, .lit ':', .mi, .lit ':', .ss]

/-- The six date_formats of process_data lines 84-91, in source order. -/
def dateFormats : List (List FTok) :=
  [fmtDMYslashHM, fmtMDYslashHM, fmtDMYdashHM, fmtYMDdashHMS, fmtDMYslashHMS, fmtMDYslashHMS]

/-! ## Cells and data frames -/

/-- A pandas cell: string, number, datetime, date, or missing. Durations
computed from In/Out are carried in seconds (60 times the source's fractional
minutes value) so the model stays in integers; duration values never reach the
aggregated output. -/
inductive Cell where
  | s (v : String)
  | num (v : Int)
  | dt (v : PyDT)
  | dte (v : Nat)
  | null
deriving DecidableEq, Repr

/-- Python str() of a cell, as used by `.astype(str)`; only the string case is
exercised by string-valued tables. -/
def cellStr : Cell → String
  | .s v => v
  | .num v => toString v
  | .dt v => toString v.year ++ "-" ++ pad2 v.month ++ "-" ++ pad2 v.day
  | .dte v => toString v
  | .null => "nan"

/-- pandas `pd.to_numeric(_, errors="coerce")` on one cell. In the model only
optionally-signed integer literals coerce; other strings become NaN (the
source also accepts fractional literals, whose values never reach the output). -/
def toNumericCell (c : Cell) : Cell :=
  match c with
  | .s v =>
    match pyIntOf v.toList with
    | some n => .num n
    | none => .null
  | .num v => .num v
  | _ => .null

structure Df where
  cols : List (String × List Cell)
deriving DecidableEq, Repr

def Df.colNames (df : Df) : List String := df.cols.map Prod.fst

/-- Python `n in df.columns`: is there a column named `n`? -/
def Df.hasCol (df : Df) (n : String) : Bool :=
  (df.cols.find? (fun p => p.1 == n)).isSome

def Df.getCol (df : Df) (n : String) : List Cell :=
  ((df.cols.find? (fun p => p.1 == n)).map Prod.snd).getD []

def Df.nRows (df : Df) : Nat :=
  match df.cols with
  | [] => 0
  | (_, v) :: _ => v.length

/-- Column assignment `df[n] = vs`: replaces an existing column in place,
otherwise appends on the right, as pandas does. -/
def Df.setCol (df : Df) (n : String) (vs : List Cell) : Df :=
  if df.hasCol n then ⟨df.cols.map (fun p => if p.1 == n then (n, vs) else p)⟩
  else ⟨df.cols ++ [(n, vs)]⟩

/-- Scalar column assignment `df[n] = c`. -/
def Df.setColScalar (df : Df) (n : String) (c : Cell) : Df :=
  df.setCol n (List.replicate df.nRows c)

/-- Keep-first deduplication with an accumulator of already-seen keys. -/
def dedupSeen [DecidableEq α] (seen : List α) : List α → List α
  | [] => []
  | x :: xs => if x ∈ seen then dedupSeen seen xs else x :: dedupSeen (x :: seen) xs

/-- pandas `Series.nunique()`: distinct non-null values. -/
def nunique (cells : List Cell) : Nat :=
  (dedupSeen [] (cells.filter (fun c => c != Cell.null))).length

/-! ## Column-wise date parsing (process_data lines 93-126) -/

abbrev GuessFn := List Cell → Option (List PyDT)

/-- pandas `pd.to_datetime(col)` with the permissive (dateutil) parser,
modelled by the external parameter `guess`; on an empty column pandas always
succeeds with an empty result, and a faithful guess preserves length. -/
def guessCol (guess : GuessFn) (cells : List Cell) : Option (List PyDT) :=
  match cells with
  | [] => some []
  | _ =>
    match guess cells with
    | some ds => if ds.length = cells.length then some ds else none
    | none => none

/-- One cell under `pd.to_datetime(_, format=...)` / `datetime.strptime`;
non-string cells raise (= `none`). -/
def cellStrptime (toks : List FTok) (c : Cell) : Option PyDT :=
  match c with
  | .s v => strptimeFmt toks v
  | _ => none

/-- Whole column with one explicit format, all-or-nothing. -/
def parseColFmt (toks : List FTok) : List Cell → Option (List PyDT)
  | [] => some []
  | c :: rest =>
    match cellStrptime toks c, parseColFmt toks rest with
    | some d, some ds => some (d :: ds)
    | _, _ => none

/-- Sample value of lines 96-97: the first entry, or the first non-null entry
if the first is NaN; an empty column raises (= `none`). -/
def sampleCell : List Cell → Option Cell
  | [] => none
  | c :: rest =>
    if c == Cell.null then (c :: rest).find? (fun x => x != Cell.null) else some c

/-- One iteration of the format loop: probe the sample, then parse the whole
column with that format. -/
def formatAttempt (toks : List FTok) (cells : List Cell) : Option (List PyDT) :=
  (sampleCell cells).bind (fun sc => (cellStrptime toks sc).bind (fun _ => parseColFmt toks cells))

def firstSome (l : List β) (f : β → Option α) : Option α :=
  match l with
  | [] => none
  | b :: bs =>
    match f b with
    | some a => some a
    | none => firstSome bs f

/-- The format loop of lines 93-107 over the In column. -/
def firstFmtColumn (cells : List Cell) : Option (List PyDT) :=
  firstSome dateFormats (fun toks => formatAttempt toks cells)

/-! ## extract_year_week (src/utils.py lines 383-408) -/

/-- Greedy-then-backtrack alternatives for the regex group `\d{1,2}`. -/
def grabTwoOneD (cs : List Char) : List (Nat × List Char) :=
  (match cs with
   | a :: b :: rest => if a.isDigit && b.isDigit then [(digitVal a * 10 + digitVal b, rest)] else []
   | _ => []) ++
  (match cs with
   | a :: rest => if a.isDigit then [(digitVal a, rest)] else []
   | _ => [])

def isSep (c : Char) : Bool := c == '/' || c == '-'

def grab4Chars : List Char → Option (List Char × List Char)
  | a :: b :: c :: d :: rest =>
    if a.isDigit && b.isDigit && c.isDigit && d.isDigit then some ([a, b, c, d], rest) else none
  | _ => none

def digitsValOf (ds : List Char) : Nat := ds.foldl (fun a c => a * 10 + digitVal c) 0

/-- Match of `(\d{1,2})[/\-](\d{1,2})[/\-](\d{4})` anchored at the head,
returning (day, month, year-digits). -/
def matchDMYAt (cs : List Char) : Option (Nat × Nat × List Char) :=
  tryAlts (grabTwoOneD cs) (fun d r1 =>
    match r1 with
    | s1 :: r2 =>
      if isSep s1 then
        tryAlts (grabTwoOneD r2) (fun m r3 =>
          match r3 with
          | s2 :: r4 =>
            if isSep s2 then
              match grab4Chars r4 with
              | some (ys, _) => some (d, m, ys)
              | none => none
            else none
          | [] => none)
      else none
    | [] => none)

/-- `re.search` of the day/month/year pattern: leftmost match. -/
def searchDMY : List Char → Option (Nat × Nat × List Char)
  | [] => none
  | c :: rest =>
    match matchDMYAt (c :: rest) with
    | some r => some r
    | none => searchDMY rest

/-- Match of `(\d{4})[/\-](\d{1,2})[/\-](\d{1,2})` anchored at the head,
returning (year-digits, month, day). -/
def matchYMDAt (cs : List Char) : Option (List Char × Nat × Nat) :=
  match grab4Chars cs with
  | some (ys, r1) =>
    match r1 with
    | s1 :: r2 =>
      if isSep s1 then
        tryAlts (grabTwoOneD r2) (fun m r3 =>
          match r3 with
          | s2 :: r4 =>
            if isSep s2 then
              tryAlts (grabTwoOneD r4) (fun d _ => some (ys, m, d))
            else none
          | [] => none)
      else none
    | [] => none
  | none => none

def searchYMD : List Char → Option (List Char × Nat × Nat)
  | [] => none
  | c :: rest =>
    match matchYMDAt (c :: rest) with
    | some r => some r
    | none => searchYMD rest

/-- extract_year_week from src/utils.py: non-strings give "Unknown Week"; a
day/month/year triple is tried first (an invalid constructed date aborts to
"Unknown Week" without trying the year-first pattern, because the exception
skips the rest of the body); then a year/month/day triple; the result formats
the matched year text with the ISO week number of the constructed date. -/
def extract_year_week (v : Cell) : String :=
  match v with
  | .s txt =>
    let cs := txt.toList
    (match searchDMY cs with
     | some (d, m, ys) =>
       match mkDate (digitsValOf ys) m d with
       | some o => String.mk ys ++ "-W" ++ pad2 (isoWeekNum (digitsValOf ys) o)
       | none => "Unknown Week"
     | none =>
       match searchYMD cs with
       | some (ys, m, d) =>
         match mkDate (digitsValOf ys) m d with
         | some o => String.mk ys ++ "-W" ++ pad2 (isoWeekNum (digitsValOf ys) o)
         | none => "Unknown Week"
       | none => "Unknown Week")
  | _ => "Unknown Week"

/-! ## Column resolution, time-tracker path (process_data lines 27-229) -/

/-- Candidate contractor column names of lines 31-35 (['Contractor'] prepended
to contractor_cols). -/
def contractorCandsT : List String :=
  ["Contractor", "Company", "Organization", "Employer", "Client", "Vendor", "Supplier", "Provider"]

/-- Lines 29-54: if Contractor is absent, first column whose lowercased name
equals a candidate, else first column containing a candidate as a substring,
else the first column when its values are mostly non-unique, else the constant
"Unknown Contractor". -/
def resolveContractorT (df : Df) : Df :=
  if df.hasCol "Contractor" then df
  else
    match df.colNames.find? (fun col => (contractorCandsT.map lowerStr).contains (lowerStr col)) with
    | some col => df.setCol "Contractor" (df.getCol col)
    | none =>
      match df.colNames.find? (fun col => contractorCandsT.any (fun c => subOf (lowerStr c) (lowerStr col))) with
      | some col => df.setCol "Contractor" (df.getCol col)
      | none =>
        match df.colNames with
        | [] => df.setColScalar "Contractor" (.s "Unknown Contractor")
        | c0 :: _ =>
          if 2 * nunique (df.getCol c0) < df.nRows then
            df.setCol "Contractor" (df.getCol c0)
          else df.setColScalar "Contractor" (.s "Unknown Contractor")

def roleCandsT : List String := ["JobTitle", "Job Title", "Position", "Trade", "Occupation"]

/-- Lines 60-78: exact case-insensitive match over the columns, then substring
match, then the constant "Worker". -/
def resolveRoleT (df : Df) : Df :=
  if df.hasCol "Role" then df
  else
    match df.colNames.find? (fun col => (roleCandsT.map lowerStr).contains (lowerStr col)) with
    | some col => df.setCol "Role" (df.getCol col)
    | none =>
      match df.colNames.find? (fun col => roleCandsT.any (fun c => subOf (lowerStr c) (lowerStr col))) with
      | some col => df.setCol "Role" (df.getCol col)
      | none => df.setColScalar "Role" (.s "Worker")

/-- Lines 81-144: build DateTime / ISO Week (strftime %Y-W%U) / Date from the
In column via the format loop then the permissive parser, falling back to the
regex extractor; without In/Out, use the first date/time-named column or the
constant "Unknown Week". -/
def dateStep (guess : GuessFn) (df : Df) : Df :=
  if df.hasCol "In" && df.hasCol "Out" then
    let inCol := df.getCol "In"
    let parsed :=
      match firstFmtColumn inCol with
      | some ds => some ds
      | none => guessCol guess inCol
    match parsed with
    | some ds =>
      let df1 := df.setCol "DateTime" (ds.map Cell.dt)
      let df2 := df1.setCol "ISO Week" (ds.map (fun t => Cell.s (strftimeYWU t)))
      df2.setCol "Date" (ds.map (fun t => Cell.dte t.ordinal))
    | none => df.setCol "ISO Week" (inCol.map (fun c => Cell.s (extract_year_week c)))
  else
    match df.colNames.find? (fun col => subOf "date" (lowerStr col) || subOf "time" (lowerStr col)) with
    | some dcol =>
      match guessCol guess (df.getCol dcol) with
      | some ds =>
        let df1 := df.setCol "DateTime" (ds.map Cell.dt)
        let df2 := df1.setCol "ISO Week" (ds.map (fun t => Cell.s (strftimeYWU t)))
        df2.setCol "Date" (ds.map (fun t => Cell.dte t.ordinal))
      | none => df.setColScalar "ISO Week" (.s "Unknown Week")
    | none => df.setColScalar "ISO Week" (.s "Unknown Week")

/-- The datetime cells of the DateTime column (always built from `Cell.dt`). -/
def dtValsOf (cells : List Cell) : List PyDT :=
  cells.map (fun c =>
    match c with
    | .dt v => v
    | _ => ⟨1900, 1, 1, 0, 0, 0⟩)

/-- Difference out - in, in seconds. -/
def diffSeconds (ins outs : List PyDT) : List Int :=
  List.zipWith (fun o i => (o.totalSeconds : Int) - (i.totalSeconds : Int)) outs ins

/-- Lines 154-176: the In/Out duration computation, `none` when the source
would raise. With no DateTime column, the permissive parser is tried on both
columns, then each explicit format on both columns; with a DateTime column,
In reuses it and Out goes through the permissive parser. -/
def tryCalcDuration (guess : GuessFn) (df : Df) : Option (List Int) :=
  if df.hasCol "DateTime" then
    match guessCol guess (df.getCol "Out") with
    | some outs => some (diffSeconds (dtValsOf (df.getCol "DateTime")) outs)
    | none => none
  else
    match guessCol guess (df.getCol "In"), guessCol guess (df.getCol "Out") with
    | some ins, some outs => some (diffSeconds ins outs)
    | _, _ =>
      match firstSome dateFormats (fun toks =>
        match parseColFmt toks (df.getCol "In"), parseColFmt toks (df.getCol "Out") with
        | some ins, some outs => some (ins, outs)
        | _, _ => none) with
      | some (ins, outs) => some (diffSeconds ins outs)
      | none => none

/-- Lines 147-189: the Duration column values. Every branch of the source
assigns df['Duration']; the except-handler branch checks for Total Minutes
again even though that branch is only reachable when Total Minutes is absent. -/
def durationVals (guess : GuessFn) (df : Df) : List Cell :=
  if df.hasCol "Total Minutes" then (df.getCol "Total Minutes").map toNumericCell
  else if df.hasCol "In" && df.hasCol "Out" then
    match tryCalcDuration guess df with
    | some secs => secs.map Cell.num
    | none =>
      if df.hasCol "Total Minutes" then (df.getCol "Total Minutes").map toNumericCell
      else List.replicate df.nRows (Cell.num 60)
  else List.replicate df.nRows (Cell.num 60)

def durationStep (guess : GuessFn) (df : Df) : Df :=
  df.setCol "Duration" (durationVals guess df)

def areaCandsT : List String := ["Location", "Site", "Place", "Zone"]

/-- Lines 192-206: Area resolution has only an exact case-insensitive pass and
the constant default "Site". -/
def areaStep (df : Df) : Df :=
  if df.hasCol "Area" then df
  else
    match df.colNames.find? (fun col => (areaCandsT.map lowerStr).contains (lowerStr col)) with
    | some col => df.setCol "Area" (df.getCol col)
    | none => df.setColScalar "Area" (.s "Site")

def personCandsT : List String := ["Name", "Person", "Employee", "Staff"]

/-- Cell-level model of `df['PersonIdentifier'] + '_' + df['Worker ID'].astype(str)`;
a non-string left operand raises in the source (unreachable for string tables)
and is modelled as NaN. -/
def pidConcat (a b : Cell) : Cell :=
  match a with
  | .s v => .s (v ++ "_" ++ cellStr b)
  | _ => .null

/-- Lines 209-229: PersonIdentifier from Worker Name (optionally suffixed with
Worker ID), else Bio ID, else the first column matching a person-like name
exactly or as a substring in one pass, else the constant "Unknown". -/
def pidStep (df : Df) : Df :=
  if df.hasCol "Worker Name" then
    let df1 := df.setCol "PersonIdentifier" (df.getCol "Worker Name")
    if df1.hasCol "Worker ID" then
      df1.setCol "PersonIdentifier"
        (List.zipWith pidConcat (df1.getCol "PersonIdentifier") (df1.getCol "Worker ID"))
    else df1
  else if df.hasCol "Bio ID" then df.setCol "PersonIdentifier" (df.getCol "Bio ID")
  else
    match df.colNames.find? (fun col =>
      (personCandsT.map lowerStr).contains (lowerStr col) ||
      personCandsT.any (fun p => subOf (lowerStr p) (lowerStr col))) with
    | some col => df.setCol "PersonIdentifier" (df.getCol col)
    | none => df.setColScalar "PersonIdentifier" (.s "Unknown")

/-! ## Aggregation (process_data lines 237-268 and 341-358) -/

abbrev K3 := Cell × Cell × Cell

abbrev K4 := Cell × Cell × Cell × Cell

def strLeB : List Char → List Char → Bool
  | [], _ => true
  | _ :: _, [] => false
  | a :: as, b :: bs =>
    if a.val < b.val then true
    else if b.val < a.val then false
    else strLeB as bs

def cellTag : Cell → Nat
  | .s _ => 0
  | .num _ => 1
  | .dt _ => 2
  | .dte _ => 3
  | .null => 4

/-- Total comparison on cells; group keys arising from string tables are
always strings and compare like Python strings (code-point lexicographic). -/
def cellLt (a b : Cell) : Bool :=
  match a, b with
  | .s x, .s y => strLeB x.toList y.toList && x != y
  | .num x, .num y => decide (x < y)
  | .dte x, .dte y => decide (x < y)
  | .dt x, .dt y => decide (x.totalSeconds < y.totalSeconds)
  | _, _ => decide (cellTag a < cellTag b)

/-- Lexicographic order on the (ISO Week, Role, Contractor) key used by the
sorted pandas groupby. -/
def k3Le (a b : K3) : Bool :=
  if cellLt a.1 b.1 then true
  else if cellLt b.1 a.1 then false
  else if cellLt a.2.1 b.2.1 then true
  else if cellLt b.2.1 a.2.1 then false
  else if cellLt a.2.2 b.2.2 then true
  else if cellLt b.2.2 a.2.2 then false
  else true

/-- groupby(keys).size(): one row per distinct key in ascending key order with
its number of occurrences. -/
def groupCounts (keys : List K3) : List (K3 × Nat) :=
  (sortLe k3Le (dedupSeen [] keys)).map (fun k => (k, (keys.filter (fun x => x == k)).length))

/-- drop_duplicates on the 4-tuple then groupby-size on the 3-tuple
(lines 239-241). -/
def aggTime (rows : List K4) : List (K3 × Nat) :=
  groupCounts ((dedupSeen [] rows).map (fun r => (r.1, r.2.1, r.2.2.1)))

/-- Plain groupby-size on the 3-tuple (line 345), with no deduplication. -/
def aggGeneric (keys : List K3) : List (K3 × Nat) := groupCounts keys

def zip3C : List Cell → List Cell → List Cell → List K3
  | a :: as, b :: bs, c :: cs => (a, b, c) :: zip3C as bs cs
  | _, _, _ => []

def zip4C : List Cell → List Cell → List Cell → List Cell → List K4
  | a :: as, b :: bs, c :: cs, d :: ds => (a, b, c, d) :: zip4C as bs cs ds
  | _, _, _, _ => []

structure OutRow where
  week : Cell
  role : Cell
  contractor : Cell
  count : Nat
deriving DecidableEq, Repr

def mkOutRow (p : K3 × Nat) : OutRow := ⟨p.1.1, p.1.2.1, p.1.2.2, p.2⟩

/-- The single default row of lines 252-257 / 263-268 / 350-355. -/
def fallbackRow : OutRow := ⟨.s "Unknown Week", .s "Worker", .s "Unknown Contractor", 1⟩

/-! ## Generic path (process_data lines 272-358) -/

/-- Lines 279-293: create ISO Week (strftime %Y-W%V) from the first
date/time-like or In/Out column via the permissive parser, else the constant
"Unknown Week". -/
def genISOWeek (guess : GuessFn) (df : Df) : Df :=
  if df.hasCol "ISO Week" then df
  else
    match df.colNames.find? (fun col =>
      subOf "date" (lowerStr col) || subOf "time" (lowerStr col) || col == "In" || col == "Out") with
    | some dcol =>
      match guessCol guess (df.getCol dcol) with
      | some ds => df.setCol "ISO Week" (ds.map (fun t => Cell.s (strftimeYWV t)))
      | none => df.setColScalar "ISO Week" (.s "Unknown Week")
    | none => df.setColScalar "ISO Week" (.s "Unknown Week")

def roleAltsG : List String := ["Position", "Job Title", "Trade", "JobTitle", "Occupation"]

def roleLowerG : List String := ["role", "position", "job title", "trade", "jobtitle", "occupation"]

/-- Lines 296-316: first candidate name present (candidate order,
case-sensitive), then first column with a case-insensitive name match, then
the constant "Worker". -/
def genRole (df : Df) : Df :=
  if df.hasCol "Role" then df
  else
    match roleAltsG.find? (fun alt => df.hasCol alt) with
    | some alt => df.setCol "Role" (df.getCol alt)
    | none =>
      match df.colNames.find? (fun col => roleLowerG.contains (lowerStr col)) with
      | some col => df.setCol "Role" (df.getCol col)
      | none => df.setColScalar "Role" (.s "Worker")

def contractorAltsG : List String :=
  ["Company", "Organization", "Employer", "Client", "Vendor", "Supplier"]

def contractorLowerG : List String :=
  ["contractor", "company", "organization", "employer", "client", "vendor", "supplier"]

/-- Lines 319-339, same shape as genRole. -/
def genContractor (df : Df) : Df :=
  if df.hasCol "Contractor" then df
  else
    match contractorAltsG.find? (fun alt => df.hasCol alt) with
    | some alt => df.setCol "Contractor" (df.getCol alt)
    | none =>
      match df.colNames.find? (fun col => contractorLowerG.contains (lowerStr col)) with
      | some col => df.setCol "Contractor" (df.getCol col)
      | none => df.setColScalar "Contractor" (.s "Unknown Contractor")

/-! ## process_data -/

/-- Line 23: `any(col in df.columns for col in ['In', 'Out', 'Worker Name'])`. -/
def timeFormatDetect (cols : List String) : Bool :=
  ["In", "Out", "Worker Name"].any (fun c => cols.contains c)

/-- Lines 192-268: the tail of the time-tracker branch after the Duration
assignment: Area and PersonIdentifier resolution, then deduplicating
aggregation, then the empty-result fallback. -/
def timeTail (df4 : Df) : List OutRow :=
  let df5 := areaStep df4
  let df6 := pidStep df5
  let keys := zip4C (df6.getCol "ISO Week") (df6.getCol "Role") (df6.getCol "Contractor")
    (df6.getCol "PersonIdentifier")
  let result := aggTime keys
  if result = [] then [fallbackRow] else result.map mkOutRow

/-- Lines 27-270: the time-tracker branch. -/
def timePath (guess : GuessFn) (df0 : Df) : List OutRow :=
  timeTail (durationStep guess (dateStep guess (resolveRoleT (resolveContractorT df0))))

/-- Lines 272-358: the generic branch; note it has no empty-result check. -/
def genericPath (guess : GuessFn) (df0 : Df) : List OutRow :=
  let df1 := genISOWeek guess df0
  let df2 := genRole df1
  let df3 := genContractor df2
  (aggGeneric (zip3C (df3.getCol "ISO Week") (df3.getCol "Role") (df3.getCol "Contractor"))).map
    mkOutRow

/-- process_data from src/utils.py on a tabular input (the body of the outer
try; for string-valued tables no statement of that body raises). -/
def process_data (guess : GuessFn) (df : Df) : List OutRow :=
  if timeFormatDetect df.colNames then timePath guess df else genericPath guess df

/-! ## Synthetic fallback (lines 360-381) and the top-level pipeline -/

def syntheticWeeks : List String := (List.range 14).map (fun w => "2023-W" ++ pad2 (w + 1))

def syntheticRoles : List String := ["Manager", "Supervisor", "Operative", "Director"]

def syntheticContractors : List String := ["Contractor A", "Contractor B", "Contractor C"]

/-- The Cartesian product traversed by the three nested loops, in loop order. -/
def synthKeys : List (String × String × String) :=
  syntheticWeeks.flatMap (fun w =>
    syntheticRoles.flatMap (fun r =>
      syntheticContractors.map (fun c => (w, r, c))))

/-- Lines 365-381: the synthetic dataset, with the i-th draw of
np.random.randint(1, 20) modelled as 1 + g i % 19. -/
def syntheticRows (g : Nat → Nat) : List OutRow :=
  synthKeys.enum.map (fun p =>
    ⟨.s p.2.1, .s p.2.2.1, .s p.2.2.2, 1 + g p.1 % 19⟩)

/-- The whole of process_data including the outer except: `none` models an
input on which the body raises (e.g. a non-tabular argument), in which case
the synthetic dataset is produced from the ambient random state `g`. -/
def process_data_top (guess : GuessFn) (inp : Option Df) (g : Nat → Nat) : List OutRow :=
  match inp with
  | some df => process_data guess df
  | none => syntheticRows g

/-! ## Spec-side definitions and concrete inputs for the claims -/

/-- Modelled from the spec (section 4.5 step 1): detect the structured
"tracking export" family when a column name matches one of Contractor, Role,
Job Title, or the table is headerless with at least 12 positional columns. -/
def specTrackingDetect (headerless : Bool) (cols : List String) : Bool :=
  cols.any (fun c => ["Contractor", "Role", "Job Title"].contains c) ||
    (headerless && decide (12 ≤ cols.length))

/-- Modelled from the spec (section 4.1): the first day of week w of year y
under the Sunday-start (%U-style) week-of-year numbering used by the producer:
week w begins on the w-th Sunday of the year. -/
def sundayWeekFirstDay (y w : Nat) : Nat :=
  toOrdinal y 1 1 + (7 - toOrdinal y 1 1 % 7) % 7 + 7 * (w - 1)

/-- The date actually produced by parse_iso_week for an in-range "-W" label:
the Monday of week w under the Monday-start (%W-style) week-of-year numbering
(days before the first Monday are week 0). -/
def mondayOfWeekW (y w : Nat) : Nat :=
  toOrdinal y 1 1 + (7 - (toOrdinal y 1 1 - 1) % 7) % 7 + 7 * (w - 1)

/-- A permissive-parser instance that always fails; pandas raising on every
fallback parse. -/
def guessNone : GuessFn := fun _ => none

/-- The two-row end-to-end input of the spec's test property 7. -/
def c3Table : Df := ⟨[
  ("Contractor", [.s "Acme", .s "Acme"]),
  ("Role", [.s "Operative", .s "Operative"]),
  ("WorkerName", [.s "John", .s "Jane"]),
  ("WorkerID", [.s "1", .s "2"]),
  ("In", [.s "13/06/2024 11:27", .s "13/06/2024 09:00"]),
  ("Out", [.s "13/06/2024 13:00", .s "13/06/2024 17:00"]),
  ("Area", [.s "Site", .s "Welfare"])]⟩

/-- A time-tracker-path table whose two raw rows normalize to the identical
(ISO Week, Role, Contractor, PersonIdentifier) 4-tuple. -/
def c4TimeTable : Df := ⟨[
  ("Worker Name", [.s "John", .s "John"]),
  ("Worker ID", [.s "123", .s "123"]),
  ("In", [.s "13/06/2024 11:27", .s "13/06/2024 11:27"]),
  ("Out", [.s "13/06/2024 13:00", .s "13/06/2024 13:00"]),
  ("Contractor", [.s "Acme", .s "Acme"]),
  ("Role", [.s "Operative", .s "Operative"]),
  ("Area", [.s "Site", .s "Site"])]⟩

/-- A generic-path input of two already-normalized rows duplicated on the full
4-tuple (Period is the code's ISO Week column). -/
def c4GenericTable : Df := ⟨[
  ("ISO Week", [.s "2024-W24", .s "2024-W24"]),
  ("Role", [.s "Operative", .s "Operative"]),
  ("Contractor", [.s "Acme", .s "Acme"]),
  ("PersonIdentifier", [.s "John_123", .s "John_123"])]⟩

/-- The state of c3Table after contractor/role resolution and the date step,
written out; the date step is guess-independent here because the first
explicit format parses both rows. -/
def c3Df3 : Df := ⟨[
  ("Contractor", [.s "Acme", .s "Acme"]),
  ("Role", [.s "Operative", .s "Operative"]),
  ("WorkerName", [.s "John", .s "Jane"]),
  ("WorkerID", [.s "1", .s "2"]),
  ("In", [.s "13/06/2024 11:27", .s "13/06/2024 09:00"]),
  ("Out", [.s "13/06/2024 13:00", .s "13/06/2024 17:00"]),
  ("Area", [.s "Site", .s "Welfare"]),
  ("DateTime", [.dt ⟨2024, 6, 13, 11, 27, 0⟩, .dt ⟨2024, 6, 13, 9, 0, 0⟩]),
  ("ISO Week", [.s "2024-W23", .s "2024-W23"]),
  ("Date", [.dte 739050, .dte 739050])]⟩

/-- The state of c4TimeTable at the same point, written out. -/
def c4Df3 : Df := ⟨[
  ("Worker Name", [.s "John", .s "John"]),
  ("Worker ID", [.s "123", .s "123"]),
  ("In", [.s "13/06/2024 11:27", .s "13/06/2024 11:27"]),
  ("Out", [.s "13/06/2024 13:00", .s "13/06/2024 13:00"]),
  ("Contractor", [.s "Acme", .s "Acme"]),
  ("Role", [.s "Operative", .s "Operative"]),
  ("Area", [.s "Site", .s "Site"]),
  ("DateTime", [.dt ⟨2024, 6, 13, 11, 27, 0⟩, .dt ⟨2024, 6, 13, 11, 27, 0⟩]),
  ("ISO Week", [.s "2024-W23", .s "2024-W23"]),
  ("Date", [.dte 739050, .dte 739050])]⟩

/-- The ten decimal digit characters. -/
def digitChars : List Char := ['0', '1', '2', '3', '4', '5', '6', '7', '8', '9']

/-- A table with the given column names and no rows. -/
def mkEmptyDf (names : List String) : Df := ⟨names.map (fun n => (n, []))⟩

/-- The table has zero rows: every column holds no cells. -/
def EmptyDf (df : Df) : Prop := ∀ p ∈ df.cols, p.2 = ([] : List Cell)

/-- An empty normalized generic-path input: canonical columns, zero rows. -/
def c6EmptyGeneric : Df := mkEmptyDf ["ISO Week", "Role", "Contractor"]

/-- The fully empty table (no columns, no rows). -/
def c7EmptyTable : Df := ⟨[]⟩

/-- A time-tracker table whose In/Out values defeat every date parser. -/
def c9Table : Df := ⟨[
  ("In", [.s "garbage"]),
  ("Out", [.s "garbage"]),
  ("Worker Name", [.s "John"])]⟩

/-! ## Helper lemmas: stable insertion sort -/

theorem insertLe_perm (le : α → α → Bool) (x : α) (l : List α) :
    (insertLe le x l).Perm (x :: l) := by
  induction l with
  | nil => simp [insertLe]
  | cons y ys ih =>
    unfold insertLe
    split
    · exact List.Perm.refl _
    · exact ((ih.cons y).trans (List.Perm.swap x y ys)).symm.symm

theorem sortLe_perm (le : α → α → Bool) (l : List α) : (sortLe le l).Perm l := by
  induction l with
  | nil => simp [sortLe]
  | cons x xs ih =>
    have h1 : sortLe le (x :: xs) = insertLe le x (sortLe le xs) := rfl
    rw [h1]
    exact (insertLe_perm le x (sortLe le xs)).trans (ih.cons x)

theorem mem_insertLe {le : α → α → Bool} {x z : α} {l : List α}
    (h : z ∈ insertLe le x l) : z = x ∨ z ∈ l := by
  have h2 := (insertLe_perm le x l).mem_iff.mp h
  exact List.mem_cons.mp h2

theorem pairwise_insertLe {le : α → α → Bool}
    (htot : ∀ a b, le a b = true ∨ le b a = true)
    (htrans : ∀ a b c, le a b = true → le b c = true → le a c = true)
    (x : α) (l : List α) (h : l.Pairwise (fun a b => le a b = true)) :
    (insertLe le x l).Pairwise (fun a b => le a b = true) := by
  induction l with
  | nil => simp [insertLe]
  | cons y ys ih =>
    unfold insertLe
    split
    case isTrue hxy =>
      refine List.Pairwise.cons ?_ h
      intro z hz
      rcases List.mem_cons.mp hz with rfl | hz
      · exact hxy
      · exact htrans x y z hxy ((List.pairwise_cons.mp h).1 z hz)
    case isFalse hxy =>
      have hyx : le y x = true := by
        rcases htot x y with h1 | h1
        · exact absurd h1 hxy
        · exact h1
      refine List.Pairwise.cons ?_ (ih (List.pairwise_cons.mp h).2)
      intro z hz
      rcases mem_insertLe hz with rfl | hz
      · exact hyx
      · exact (List.pairwise_cons.mp h).1 z hz

theorem pairwise_sortLe {le : α → α → Bool}
    (htot : ∀ a b, le a b = true ∨ le b a = true)
    (htrans : ∀ a b c, le a b = true → le b c = true → le a c = true)
    (l : List α) : (sortLe le l).Pairwise (fun a b => le a b = true) := by
  induction l with
  | nil => simp [sortLe]
  | cons x xs ih => exact pairwise_insertLe htot htrans x (sortLe le xs) ih

/-! ## Helper lemmas: keep-first deduplication -/

theorem dedupSeen_append_mem [DecidableEq α] (l : List α) (x : α) :
    ∀ seen : List α, x ∈ l ∨ x ∈ seen → dedupSeen seen (l ++ [x]) = dedupSeen seen l := by
  induction l with
  | nil =>
    intro seen h
    rcases h with h | h
    · cases h
    · simp [dedupSeen, h]
  | cons y ys ih =>
    intro seen h
    simp only [List.cons_append, dedupSeen]
    by_cases hy : y ∈ seen
    · rw [if_pos hy, if_pos hy]
      refine ih seen ?_
      rcases h with h | h
      · rcases List.mem_cons.mp h with rfl | h2
        · exact Or.inr hy
        · exact Or.inl h2
      · exact Or.inr h
    · rw [if_neg hy, if_neg hy]
      refine congrArg (y :: ·) (ih (y :: seen) ?_)
      rcases h with h | h
      · rcases List.mem_cons.mp h with rfl | h2
        · exact Or.inr (List.mem_cons_self x seen)
        · exact Or.inl h2
      · exact Or.inr (List.mem_cons_of_mem y h)

theorem aggTime_append_dup (l : List K4) (x : K4) (h : x ∈ l) :
    aggTime (l ++ [x]) = aggTime l := by
  unfold aggTime
  rw [dedupSeen_append_mem l x [] (Or.inl h)]

/-! ## Helper lemmas: filtering parseable labels -/

theorem map_fst_filter_snd (f : String → Option Nat) (ws : List String) :
    ((ws.map (fun w => (w, f w))).filter (fun p => p.2.isSome)).map Prod.fst =
      ws.filter (fun w => (f w).isSome) := by
  induction ws with
  | nil => rfl
  | cons w ws ih =>
    simp only [List.map_cons, List.filter_cons]
    by_cases h : (f w).isSome
    · simp [h, ih]
    · simp [h, ih]

theorem mem_pairs_snd_eq (f : String → Option Nat) (ws : List String)
    (p : String × Option Nat) (h : p ∈ ws.map (fun w => (w, f w))) : p.2 = f p.1 := by
  rcases List.mem_map.mp h with ⟨w, _, rfl⟩
  rfl

/-! ## Helper lemmas: data-frame structure -/

theorem setCol_append (df : Df) (n : String) (vs : List Cell) (h : df.hasCol n = false) :
    df.setCol n vs = ⟨df.cols ++ [(n, vs)]⟩ := by
  simp [Df.setCol, h]

theorem hasCol_append_single (l : List (String × List Cell)) (n : String) (vs : List Cell)
    (m : String) :
    Df.hasCol ⟨l ++ [(n, vs)]⟩ m = (Df.hasCol ⟨l⟩ m || n == m) := by
  simp only [Df.hasCol, List.find?_append]
  cases hf : List.find? (fun p => p.1 == m) l with
  | some p => simp [Option.or]
  | none =>
    simp only [Option.or, Bool.false_or]
    by_cases hnm : n == m
    · simp [List.find?, hnm]
    · simp only [Bool.not_eq_true] at hnm
      simp [List.find?, hnm]

theorem getCol_append_single_ne (l : List (String × List Cell)) (n : String) (vs : List Cell)
    (m : String) (h : (n == m) = false) :
    Df.getCol ⟨l ++ [(n, vs)]⟩ m = Df.getCol ⟨l⟩ m := by
  simp only [Df.getCol, List.find?_append]
  have h1 : List.find? (fun p => p.1 == m) [(n, vs)] = none := by simp [List.find?, h]
  rw [h1]
  cases List.find? (fun p => p.1 == m) l <;> simp [Option.or]

theorem getCol_append_single_self (l : List (String × List Cell)) (n : String) (vs : List Cell)
    (h : Df.hasCol ⟨l⟩ n = false) :
    Df.getCol ⟨l ++ [(n, vs)]⟩ n = vs := by
  have h1 : List.find? (fun p => p.1 == n) l = none := by
    cases hf : List.find? (fun p => p.1 == n) l with
    | none => rfl
    | some p => simp [Df.hasCol, hf] at h
  simp [Df.getCol, List.find?_append, h1, Option.or, List.find?]

theorem areaStep_of_hasArea (df : Df) (h : df.hasCol "Area" = true) : areaStep df = df := by
  simp [areaStep, h]

/-- The tail of the time path on the normalized c3 frame gives the same single
aggregated row whatever cells the Duration column holds. -/
theorem c3_tail (vals : List Cell) : timeTail (Df.setCol c3Df3 "Duration" vals) =
    [⟨.s "2024-W23", .s "Operative", .s "Acme", 2⟩] := by
  rw [setCol_append c3Df3 "Duration" vals (by decide)]
  set df5 : Df := ⟨c3Df3.cols ++ [("Duration", vals)]⟩ with hdf5
  have harea : areaStep df5 = df5 := by
    apply areaStep_of_hasArea
    rw [hdf5, hasCol_append_single]
    decide
  have hwn : df5.hasCol "Worker Name" = false := by
    rw [hdf5, hasCol_append_single]; decide
  have hbio : df5.hasCol "Bio ID" = false := by
    rw [hdf5, hasCol_append_single]; decide
  have hnames : df5.colNames =
      ["Contractor", "Role", "WorkerName", "WorkerID", "In", "Out", "Area", "DateTime",
       "ISO Week", "Date", "Duration"] := by
    rw [hdf5]; simp [Df.colNames, c3Df3]
  have hfind : df5.colNames.find? (fun col =>
      (personCandsT.map lowerStr).contains (lowerStr col) ||
      personCandsT.any (fun p => subOf (lowerStr p) (lowerStr col))) = some "WorkerName" := by
    rw [hnames]; decide
  have hgwn : df5.getCol "WorkerName" = [.s "John", .s "Jane"] := by
    rw [hdf5, getCol_append_single_ne _ _ _ _ (by decide)]; decide
  have hpid : pidStep df5 = df5.setCol "PersonIdentifier" [.s "John", .s "Jane"] := by
    rw [pidStep, hwn, hbio, hfind]
    simp [hgwn]
  have hpidhas : df5.hasCol "PersonIdentifier" = false := by
    rw [hdf5, hasCol_append_single]; decide
  rw [timeTail, harea, hpid, setCol_append df5 "PersonIdentifier" _ hpidhas]
  rw [hdf5]
  have k1 : Df.getCol ⟨(c3Df3.cols ++ [("Duration", vals)]) ++
      [("PersonIdentifier", [.s "John", .s "Jane"])]⟩ "ISO Week" =
      [.s "2024-W23", .s "2024-W23"] := by
    rw [getCol_append_single_ne _ _ _ _ (by decide), getCol_append_single_ne _ _ _ _ (by decide)]
    decide
  have k2 : Df.getCol ⟨(c3Df3.cols ++ [("Duration", vals)]) ++
      [("PersonIdentifier", [.s "John", .s "Jane"])]⟩ "Role" =
      [.s "Operative", .s "Operative"] := by
    rw [getCol_append_single_ne _ _ _ _ (by decide), getCol_append_single_ne _ _ _ _ (by decide)]
    decide
  have k3 : Df.getCol ⟨(c3Df3.cols ++ [("Duration", vals)]) ++
      [("PersonIdentifier", [.s "John", .s "Jane"])]⟩ "Contractor" =
      [.s "Acme", .s "Acme"] := by
    rw [getCol_append_single_ne _ _ _ _ (by decide), getCol_append_single_ne _ _ _ _ (by decide)]
    decide
  have k4 : Df.getCol ⟨(c3Df3.cols ++ [("Duration", vals)]) ++
      [("PersonIdentifier", [.s "John", .s "Jane"])]⟩ "PersonIdentifier" =
      [.s "John", .s "Jane"] := by
    apply getCol_append_single_self
    rw [hasCol_append_single]; decide
  rw [k1, k2, k3, k4]
  decide

/-! ## Helper lemmas: empty tables -/

theorem emptyDf_mkEmpty (names : List String) : EmptyDf (mkEmptyDf names) := by
  intro p hp
  rcases List.mem_map.mp hp with ⟨n, _, rfl⟩
  rfl

theorem nRows_empty {df : Df} (h : EmptyDf df) : df.nRows = 0 := by
  unfold Df.nRows
  cases hc : df.cols with
  | nil => rfl
  | cons p l =>
    obtain ⟨n, v⟩ := p
    have hp : (n, v) ∈ df.cols := by
      rw [hc]
      exact List.mem_cons_self _ _
    have hv := h (n, v) hp
    simp only at hv
    simp [hv]

theorem getCol_empty {df : Df} (h : EmptyDf df) (n : String) : df.getCol n = [] := by
  unfold Df.getCol
  cases hf : df.cols.find? (fun p => p.1 == n) with
  | none => rfl
  | some p =>
    have hm := List.mem_of_find?_eq_some hf
    simp [h p hm]

theorem setCol_empty {df : Df} (h : EmptyDf df) (n : String) (vs : List Cell) (hvs : vs = []) :
    EmptyDf (df.setCol n vs) := by
  subst hvs
  unfold Df.setCol
  split
  · intro p hp
    rcases List.mem_map.mp hp with ⟨q, hq, rfl⟩
    split
    · rfl
    · exact h q hq
  · intro p hp
    rcases List.mem_append.mp hp with hp | hp
    · exact h p hp
    · simp only [List.mem_cons, List.not_mem_nil, or_false] at hp
      rw [hp]

theorem setColScalar_empty {df : Df} (h : EmptyDf df) (n : String) (c : Cell) :
    EmptyDf (df.setColScalar n c) := by
  unfold Df.setColScalar
  exact setCol_empty h n _ (by rw [nRows_empty h]; rfl)

theorem resolveContractorT_empty {df : Df} (guessless : EmptyDf df) :
    EmptyDf (resolveContractorT df) := by
  unfold resolveContractorT
  split
  · exact guessless
  · split
    · exact setCol_empty guessless _ _ (getCol_empty guessless _)
    · split
      · exact setCol_empty guessless _ _ (getCol_empty guessless _)
      · split
        · exact setColScalar_empty guessless _ _
        · split
          · exact setCol_empty guessless _ _ (getCol_empty guessless _)
          · exact setColScalar_empty guessless _ _

theorem resolveRoleT_empty {df : Df} (h : EmptyDf df) : EmptyDf (resolveRoleT df) := by
  unfold resolveRoleT
  split
  · exact h
  · split
    · exact setCol_empty h _ _ (getCol_empty h _)
    · split
      · exact setCol_empty h _ _ (getCol_empty h _)
      · exact setColScalar_empty h _ _

theorem dateStep_empty (guess : GuessFn) {df : Df} (h : EmptyDf df) :
    EmptyDf (dateStep guess df) := by
  unfold dateStep
  split
  · rw [getCol_empty h]
    show EmptyDf (match (match firstFmtColumn [] with
      | some ds => some ds
      | none => guessCol guess []) with
      | some ds => ((df.setCol "DateTime" (ds.map Cell.dt)).setCol "ISO Week"
          (ds.map (fun t => Cell.s (strftimeYWU t)))).setCol "Date"
          (ds.map (fun t => Cell.dte t.ordinal))
      | none => df.setCol "ISO Week" (([] : List Cell).map (fun c => Cell.s (extract_year_week c))))
    show EmptyDf (((df.setCol "DateTime" []).setCol "ISO Week" []).setCol "Date" [])
    exact setCol_empty (setCol_empty (setCol_empty h _ _ rfl) _ _ rfl) _ _ rfl
  · split
    · split
      case _ dcol _ ds heq =>
        rw [getCol_empty h] at heq
        have hds : ds = [] := by
          have : (some [] : Option (List PyDT)) = some ds := heq
          exact (Option.some.injEq _ _ ▸ this).symm
        subst hds
        exact setCol_empty (setCol_empty (setCol_empty h _ _ rfl) _ _ rfl) _ _ rfl
      · exact setColScalar_empty h _ _
    · exact setColScalar_empty h _ _

theorem tryCalc_empty (guess : GuessFn) {df : Df} (h : EmptyDf df) :
    tryCalcDuration guess df = some [] := by
  unfold tryCalcDuration
  rw [getCol_empty h "Out", getCol_empty h "In", getCol_empty h "DateTime"]
  split <;> rfl

theorem durationStep_empty (guess : GuessFn) {df : Df} (h : EmptyDf df) :
    EmptyDf (durationStep guess df) := by
  unfold durationStep durationVals
  split
  · exact setCol_empty h _ _ (by rw [getCol_empty h]; rfl)
  · split
    · rw [tryCalc_empty guess h]
      exact setCol_empty h _ _ rfl
    · exact setCol_empty h _ _ (by rw [nRows_empty h]; rfl)

theorem areaStep_empty {df : Df} (h : EmptyDf df) : EmptyDf (areaStep df) := by
  unfold areaStep
  split
  · exact h
  · split
    · exact setCol_empty h _ _ (getCol_empty h _)
    · exact setColScalar_empty h _ _

theorem pidStep_empty {df : Df} (h : EmptyDf df) : EmptyDf (pidStep df) := by
  unfold pidStep
  split
  · have h1 : EmptyDf (df.setCol "PersonIdentifier" (df.getCol "Worker Name")) :=
      setCol_empty h _ _ (getCol_empty h _)
    show EmptyDf (if (df.setCol "PersonIdentifier" (df.getCol "Worker Name")).hasCol
        "Worker ID" = true then
      (df.setCol "PersonIdentifier" (df.getCol "Worker Name")).setCol "PersonIdentifier"
        (List.zipWith pidConcat
          ((df.setCol "PersonIdentifier" (df.getCol "Worker Name")).getCol "PersonIdentifier")
          ((df.setCol "PersonIdentifier" (df.getCol "Worker Name")).getCol "Worker ID"))
      else df.setCol "PersonIdentifier" (df.getCol "Worker Name"))
    split
    · refine setCol_empty h1 _ _ ?_
      rw [getCol_empty h1]
      rfl
    · exact h1
  · split
    · exact setCol_empty h _ _ (getCol_empty h _)
    · split
      · exact setCol_empty h _ _ (getCol_empty h _)
      · exact setColScalar_empty h _ _

theorem timeTail_empty {df : Df} (h : EmptyDf df) : timeTail df = [fallbackRow] := by
  unfold timeTail
  have h6 : EmptyDf (pidStep (areaStep df)) := pidStep_empty (areaStep_empty h)
  simp only [getCol_empty h6]
  rfl

theorem genISOWeek_empty (guess : GuessFn) {df : Df} (h : EmptyDf df) :
    EmptyDf (genISOWeek guess df) := by
  unfold genISOWeek
  split
  · exact h
  · split
    · split
      case _ dcol _ ds heq =>
        rw [getCol_empty h] at heq
        have hds : ds = [] := by
          have h2 : (some [] : Option (List PyDT)) = some ds := heq
          exact (Option.some.injEq _ _ ▸ h2).symm
        subst hds
        exact setCol_empty h _ _ rfl
      · exact setColScalar_empty h _ _
    · exact setColScalar_empty h _ _

theorem genRole_empty {df : Df} (h : EmptyDf df) : EmptyDf (genRole df) := by
  unfold genRole
  split
  · exact h
  · split
    · exact setCol_empty h _ _ (getCol_empty h _)
    · split
      · exact setCol_empty h _ _ (getCol_empty h _)
      · exact setColScalar_empty h _ _

theorem genContractor_empty {df : Df} (h : EmptyDf df) : EmptyDf (genContractor df) := by
  unfold genContractor
  split
  · exact h
  · split
    · exact setCol_empty h _ _ (getCol_empty h _)
    · split
      · exact setCol_empty h _ _ (getCol_empty h _)
      · exact setColScalar_empty h _ _

theorem genericPath_empty (guess : GuessFn) {df : Df} (h : EmptyDf df) :
    genericPath guess df = [] := by
  unfold genericPath
  have h3 : EmptyDf (genContractor (genRole (genISOWeek guess df))) :=
    genContractor_empty (genRole_empty (genISOWeek_empty guess h))
  simp only [getCol_empty h3]
  rfl

/-! ## Helper lemmas: decimal digit strings -/

theorem digitChars_props : ∀ c ∈ digitChars,
    c.isDigit = true ∧ isPySpace c = false ∧ c ≠ '+' ∧ c ≠ '-' ∧ c ≠ '_' ∧ c ≠ 'W' := by
  decide

theorem digitCharOf_mem {n : Nat} (h : n < 10) : digitCharOf n ∈ digitChars := by
  interval_cases n <;> decide

theorem digitVal_digitCharOf {n : Nat} (h : n < 10) : digitVal (digitCharOf n) = n := by
  interval_cases n <;> decide

theorem numToDigitsAux_mem : ∀ fuel n, n < fuel →
    ∀ c ∈ numToDigitsAux fuel n, c ∈ digitChars := by
  intro fuel
  induction fuel with
  | zero => intro n h; omega
  | succ f ih =>
    intro n h c hc
    unfold numToDigitsAux at hc
    split at hc
    · simp only [List.mem_cons, List.not_mem_nil, or_false] at hc
      rw [hc]
      exact digitCharOf_mem (by assumption)
    · rcases List.mem_append.mp hc with hc | hc
      · have hd : n / 10 < f := by
          have h10 : ¬n < 10 := by assumption
          have := Nat.div_lt_self (by omega : 0 < n) (by omega : 1 < 10)
          omega
        exact ih (n / 10) hd c hc
      · simp only [List.mem_cons, List.not_mem_nil, or_false] at hc
        rw [hc]
        exact digitCharOf_mem (Nat.mod_lt _ (by omega))

theorem numToDigits_mem (n : Nat) : ∀ c ∈ numToDigits n, c ∈ digitChars :=
  numToDigitsAux_mem (n + 1) n (Nat.lt_succ_self n)

theorem numToDigitsAux_ne_nil : ∀ fuel n, n < fuel → numToDigitsAux fuel n ≠ [] := by
  intro fuel
  induction fuel with
  | zero => intro n h; omega
  | succ f _ =>
    intro n _
    unfold numToDigitsAux
    split
    · simp
    · simp

theorem foldl_val_numToDigitsAux : ∀ fuel n a, n < fuel →
    (numToDigitsAux fuel n).foldl (fun acc c => acc * 10 + digitVal c) a =
      a * 10 ^ (numToDigitsAux fuel n).length + n := by
  intro fuel
  induction fuel with
  | zero => intro n a h; omega
  | succ f ih =>
    intro n a h
    unfold numToDigitsAux
    split
    case isTrue h10 =>
      simp only [List.foldl_cons, List.foldl_nil, List.length_cons, List.length_nil]
      rw [digitVal_digitCharOf h10]
      ring
    case isFalse h10 =>
      have hd : n / 10 < f := by
        have := Nat.div_lt_self (by omega : 0 < n) (by omega : 1 < 10)
        omega
      rw [List.foldl_append, ih (n / 10) a hd]
      simp only [List.foldl_cons, List.foldl_nil, List.length_append, List.length_cons,
        List.length_nil]
      rw [digitVal_digitCharOf (Nat.mod_lt _ (by omega : 0 < 10))]
      have hp : 10 ^ ((numToDigitsAux f (n / 10)).length + (0 + 1)) =
          10 ^ (numToDigitsAux f (n / 10)).length * 10 := by
        rw [Nat.zero_add, pow_succ]
      rw [hp]
      generalize 10 ^ (numToDigitsAux f (n / 10)).length = k
      have := Nat.div_add_mod n 10
      ring_nf
      omega

theorem digitsValOf_numToDigits (n : Nat) : digitsValOf (numToDigits n) = n := by
  unfold digitsValOf numToDigits
  rw [foldl_val_numToDigitsAux (n + 1) n 0 (Nat.lt_succ_self n)]
  simp

theorem pyDigitsAux_of_digits : ∀ (ds : List Char) (a : Nat),
    (∀ c ∈ ds, c.isDigit = true) →
    pyDigitsAux a ds = some (ds.foldl (fun acc c => acc * 10 + digitVal c) a) := by
  intro ds
  induction ds with
  | nil => intro a _; rfl
  | cons c rest ih =>
    intro a h
    unfold pyDigitsAux
    rw [if_pos (h c (List.mem_cons_self _ _))]
    rw [ih _ (fun x hx => h x (List.mem_cons_of_mem c hx))]
    rfl

theorem pyDigits_of_digits (ds : List Char) (hne : ds ≠ [])
    (h : ∀ c ∈ ds, c.isDigit = true) : pyDigits ds = some (digitsValOf ds) := by
  cases ds with
  | nil => exact absurd rfl hne
  | cons c rest =>
    show (if c.isDigit = true then pyDigitsAux (digitVal c) rest else none) =
      some (digitsValOf (c :: rest))
    rw [if_pos (h c (List.mem_cons_self _ _))]
    rw [pyDigitsAux_of_digits rest (digitVal c) (fun x hx => h x (List.mem_cons_of_mem c hx))]
    unfold digitsValOf
    simp

theorem dropWhile_of_none (p : Char → Bool) (l : List Char)
    (h : ∀ c ∈ l, p c = false) : l.dropWhile p = l := by
  cases l with
  | nil => rfl
  | cons c rest => simp [List.dropWhile_cons, h c (List.mem_cons_self _ _)]

theorem stripSpaces_of_no_space (l : List Char) (h : ∀ c ∈ l, isPySpace c = false) :
    stripSpaces l = l := by
  unfold stripSpaces
  rw [dropWhile_of_none _ _ h]
  rw [dropWhile_of_none _ _ (fun c hc => h c (List.mem_reverse.mp hc))]
  exact List.reverse_reverse l

theorem pyIntOf_numToDigits (n : Nat) : pyIntOf (numToDigits n) = some (n : Int) := by
  have hmem := numToDigits_mem n
  have hdig : ∀ c ∈ numToDigits n, c.isDigit = true :=
    fun c hc => (digitChars_props c (hmem c hc)).1
  have hnsp : ∀ c ∈ numToDigits n, isPySpace c = false :=
    fun c hc => (digitChars_props c (hmem c hc)).2.1
  have hne : numToDigits n ≠ [] := numToDigitsAux_ne_nil (n + 1) n (Nat.lt_succ_self n)
  unfold pyIntOf
  rw [stripSpaces_of_no_space _ hnsp]
  cases hnn : numToDigits n with
  | nil => exact absurd hnn hne
  | cons c rest =>
    have hc := hmem c (by rw [hnn]; exact List.mem_cons_self _ _)
    show (if c = '+' then _ else if c = '-' then _ else
      (pyDigits (c :: rest)).map Int.ofNat) = _
    rw [if_neg (digitChars_props c hc).2.2.1, if_neg (digitChars_props c hc).2.2.2.1]
    rw [← hnn, pyDigits_of_digits _ hne hdig, digitsValOf_numToDigits]
    rfl

/-! ## Helper lemmas: splitting on a two-character separator -/

theorem split2_no_sep (a b : Char) : ∀ l : List Char, (∀ c ∈ l, c ≠ a) →
    split2 a b l = [l] := by
  intro l
  induction l with
  | nil => intro _; rfl
  | cons c t ih =>
    intro h
    cases t with
    | nil => rfl
    | cons d t2 =>
      have hca : ¬(c = a ∧ d = b) := fun hcd => (h c (List.mem_cons_self _ _)) hcd.1
      unfold split2
      rw [if_neg hca, ih (fun x hx => h x (List.mem_cons_of_mem c hx))]

theorem split2_mid (a b : Char) (ws : List Char) (hws : ∀ c ∈ ws, c ≠ a) :
    ∀ ys : List Char, (∀ c ∈ ys, c ≠ a) →
    split2 a b (ys ++ a :: b :: ws) = [ys, ws] := by
  intro ys
  induction ys with
  | nil =>
    intro _
    show split2 a b (a :: b :: ws) = [[], ws]
    unfold split2
    rw [if_pos ⟨rfl, rfl⟩, split2_no_sep a b ws hws]
  | cons c ys ih =>
    intro h
    have hca : c ≠ a := h c (List.mem_cons_self _ _)
    have hih := ih (fun x hx => h x (List.mem_cons_of_mem c hx))
    cases hy : ys ++ a :: b :: ws with
    | nil => simp at hy
    | cons d t2 =>
      show split2 a b (c :: (ys ++ a :: b :: ws)) = [c :: ys, ws]
      rw [hy]
      unfold split2
      rw [if_neg (fun hcd => hca hcd.1), ← hy, hih]

theorem contains_mid_W (ys ws : List Char) (sep : Char) :
    (ys ++ sep :: 'W' :: ws).contains 'W' = true := by
  have hm : 'W' ∈ ys ++ sep :: 'W' :: ws :=
    List.mem_append_right ys (List.mem_cons_of_mem sep (List.mem_cons_self _ _))
  exact List.elem_eq_true_of_mem hm

/-! ## Helper lemmas: strptime %Y-%W-%w on in-range labels -/

theorem toOrdinal_jan1 (y : Nat) : toOrdinal y 1 1 = 365 * (y - 1) + leapsUpTo (y - 1) + 1 :=
  rfl

theorem mondayOfWeekW_le_max (y w : Nat) (h2 : y ≤ 9998) (h4 : w ≤ 53) :
    mondayOfWeekW y w ≤ maxOrdinal := by
  have hy : y - 1 ≤ 9997 := by omega
  have h4a : (y - 1) / 4 ≤ 9997 / 4 := Nat.div_le_div_right hy
  have h4b : (y - 1) / 400 ≤ 9997 / 400 := Nat.div_le_div_right hy
  have hl : leapsUpTo (y - 1) ≤ (y - 1) / 4 + (y - 1) / 400 := by
    unfold leapsUpTo
    omega
  have hmod : (7 - (toOrdinal y 1 1 - 1) % 7) % 7 ≤ 6 :=
    Nat.le_of_lt_succ (Nat.mod_lt _ (by omega))
  have hj := toOrdinal_jan1 y
  unfold mondayOfWeekW maxOrdinal
  omega

theorem pyWeekday_mondayOfWeekW (y w : Nat) : pyWeekday (mondayOfWeekW y w) = 0 := by
  have hj := toOrdinal_jan1 y
  unfold pyWeekday mondayOfWeekW
  omega

theorem strptimeYWw_range (y w : Nat) (h1 : 1000 ≤ y) (h2 : y ≤ 9998) (h3 : 1 ≤ w)
    (h4 : w ≤ 53) : strptimeYWw (y : Int) (w : Int) = some (mondayOfWeekW y w) := by
  unfold strptimeYWw
  rw [if_pos ⟨by exact_mod_cast h1, by exact_mod_cast Nat.le_trans h2 (by omega),
    Int.ofNat_nonneg w, by exact_mod_cast h4⟩]
  simp only [Int.toNat_natCast]
  rw [if_neg (by omega : ¬w = 0)]
  have hb : ((toOrdinal y 1 1 + (7 - (toOrdinal y 1 1 - 1) % 7) % 7 + 7 * (w - 1) : Nat) : Int) ≤
      (maxOrdinal : Int) := by
    exact_mod_cast mondayOfWeekW_le_max y w h2 h4
  rw [if_pos ⟨by have hj := toOrdinal_jan1 y; omega, hb⟩]
  rw [Int.toNat_natCast]
  rfl

/-! ## Claim C1 -/

/-- C1: the claim states that the tracking-export family is detected exactly
when a column name is one of Contractor, Role, Job Title (or the table is
headerless with at least 12 columns). The code's detection differs: a table
whose columns are exactly ["Contractor"] satisfies the spec predicate but is
not detected as the time-tracker format. -/
theorem c1_counterexample :
    specTrackingDetect false ["Contractor"] = true ∧
      timeFormatDetect ["Contractor"] = false := by
  constructor
  · decide
  · decide

/-- C1 (amended): process_data detects the time-tracker family exactly when
some column name is one of In, Out, Worker Name; no 12-column name template is
ever assigned (column names are used as found). -/
theorem c1_theorem : ∀ cols : List String,
    timeFormatDetect cols = true ↔ ∃ c ∈ cols, c = "In" ∨ c = "Out" ∨ c = "Worker Name" := by
  intro cols
  unfold timeFormatDetect
  simp only [List.any_eq_true, List.mem_cons, List.not_mem_nil, or_false]
  constructor
  · rintro ⟨c, hc, hmem⟩
    rcases hc with rfl | rfl | rfl
    · exact ⟨"In", by simpa using hmem, Or.inl rfl⟩
    · exact ⟨"Out", by simpa using hmem, Or.inr (Or.inl rfl)⟩
    · exact ⟨"Worker Name", by simpa using hmem, Or.inr (Or.inr rfl)⟩
  · rintro ⟨c, hc, hor⟩
    rcases hor with rfl | rfl | rfl
    · exact ⟨"In", Or.inl rfl, by simpa using hc⟩
    · exact ⟨"Out", Or.inr (Or.inl rfl), by simpa using hc⟩
    · exact ⟨"Worker Name", Or.inr (Or.inr rfl), by simpa using hc⟩

/-! ## Claim C2 -/

/-- C2: parse_iso_week("2024-W24") yields 2024-06-10, the Monday of the
Monday-start (%W) week 24, whereas the first day of week 24 under the
Sunday-start convention the producer uses is 2024-06-16; moreover a
"yyyy_Www" label is not parsed at all, because the `'W' in s` test routes it
to the "-W" split, whose two-element unpacking fails. -/
theorem c2_counterexample :
    parse_iso_week "2024-W24" = some (toOrdinal 2024 6 10) ∧
    sundayWeekFirstDay 2024 24 = toOrdinal 2024 6 16 ∧
    toOrdinal 2024 6 10 ≠ toOrdinal 2024 6 16 ∧
    weekU 2024 (dayOfYear 2024 6 16) = 24 ∧
    sunWeekday (toOrdinal 2024 6 16) = 0 ∧
    weekU 2024 (dayOfYear 2024 6 10) = 23 ∧
    parse_iso_week "2024_W24" = none := by
  refine ⟨by decide, by decide, by decide, by decide, by decide, by decide, by decide⟩

/-- C2 (amended): for every label "<year>-W<week>" with a four-digit year up
to 9998 and week 1..53, parse_iso_week returns the Monday of that week under
the Monday-start (%W-style) week-of-year numbering — a Monday, not the
Sunday-start first day — and every label "<year>_W<week>" parses to nothing. -/
theorem c2_theorem : ∀ y w : Nat, 1000 ≤ y → y ≤ 9998 → 1 ≤ w → w ≤ 53 →
    parse_iso_week (String.mk (numToDigits y ++ '-' :: 'W' :: numToDigits w)) =
      some (mondayOfWeekW y w) ∧
    parse_iso_week (String.mk (numToDigits y ++ '_' :: 'W' :: numToDigits w)) = none ∧
    pyWeekday (mondayOfWeekW y w) = 0 := by
  intro y w h1 h2 h3 h4
  have hdy : ∀ c ∈ numToDigits y, c ≠ '-' :=
    fun c hc => (digitChars_props c (numToDigits_mem y c hc)).2.2.2.1
  have hdw : ∀ c ∈ numToDigits w, c ≠ '-' :=
    fun c hc => (digitChars_props c (numToDigits_mem w c hc)).2.2.2.1
  refine ⟨?_, ?_, pyWeekday_mondayOfWeekW y w⟩
  · have hW := contains_mid_W (numToDigits y) (numToDigits w) '-'
    have hcs : (String.mk (numToDigits y ++ '-' :: 'W' :: numToDigits w)).toList =
        numToDigits y ++ '-' :: 'W' :: numToDigits w := rfl
    unfold parse_iso_week
    rw [hcs, if_pos hW, split2_mid '-' 'W' (numToDigits w) hdw (numToDigits y) hdy]
    show (match pyIntOf (numToDigits y), pyIntOf (numToDigits w) with
      | some yy, some ww => strptimeYWw yy ww
      | _, _ => none) = some (mondayOfWeekW y w)
    rw [pyIntOf_numToDigits y, pyIntOf_numToDigits w]
    exact strptimeYWw_range y w h1 h2 h3 h4
  · have hW := contains_mid_W (numToDigits y) (numToDigits w) '_'
    have hcs : (String.mk (numToDigits y ++ '_' :: 'W' :: numToDigits w)).toList =
        numToDigits y ++ '_' :: 'W' :: numToDigits w := rfl
    have hnod : ∀ c ∈ numToDigits y ++ '_' :: 'W' :: numToDigits w, c ≠ '-' := by
      intro c hc
      rcases List.mem_append.mp hc with hc | hc
      · exact hdy c hc
      · rcases List.mem_cons.mp hc with rfl | hc
        · decide
        · rcases List.mem_cons.mp hc with rfl | hc
          · decide
          · exact hdw c hc
    unfold parse_iso_week
    rw [hcs, if_pos hW, split2_no_sep '-' 'W' _ hnod]

/-- C2 witness: the theorem applied at year 2024, week 24 (the label
"2024-W24"). -/
theorem c2_witness :
    parse_iso_week (String.mk (numToDigits 2024 ++ '-' :: 'W' :: numToDigits 24)) =
      some (mondayOfWeekW 2024 24) ∧
    parse_iso_week (String.mk (numToDigits 2024 ++ '_' :: 'W' :: numToDigits 24)) = none ∧
    pyWeekday (mondayOfWeekW 2024 24) = 0 :=
  c2_theorem 2024 24 (by omega) (by omega) (by omega) (by omega)

/-! ## Claim C3 -/

/-- C3: the claimed end-to-end result carries Period "2024-W24", but the code
computes the ISO Week column with strftime %U (Sunday-start week of year),
under which 13/06/2024 falls in week 23, so the actual output row differs from
the claimed one. -/
theorem c3_counterexample :
    process_data guessNone c3Table ≠ [⟨.s "2024-W24", .s "Operative", .s "Acme", 2⟩] := by
  decide

/-- C3 (amended): normalizing and aggregating the two-row input produces
exactly one aggregated record with Period "2024-W23" (the %U week of
2024-06-13), Role "Operative", Contractor "Acme" and WorkerCount 2, whatever
the permissive date parser does. -/
theorem c3_theorem : ∀ guess : GuessFn,
    process_data guess c3Table = [⟨.s "2024-W23", .s "Operative", .s "Acme", 2⟩] := by
  intro guess
  have h1 : resolveRoleT (resolveContractorT c3Table) = c3Table := by decide
  have hcond : (c3Table.hasCol "In" && c3Table.hasCol "Out") = true := by decide
  have hff : firstFmtColumn (c3Table.getCol "In") =
      some [⟨2024, 6, 13, 11, 27, 0⟩, ⟨2024, 6, 13, 9, 0, 0⟩] := by decide
  have hd : dateStep guess c3Table = c3Df3 := by
    unfold dateStep
    simp only [hcond, if_true, hff]
    decide
  have ha : timeFormatDetect c3Table.colNames = true := by decide
  have h0 : process_data guess c3Table =
      timeTail (durationStep guess (dateStep guess (resolveRoleT (resolveContractorT c3Table)))) := by
    unfold process_data timePath
    rw [ha]
    simp only [if_true]
  rw [h0, h1, hd]
  unfold durationStep
  exact c3_tail _

/-! ## Claim C4 -/

/-- C4: aggregation is claimed to always dedup on the 4-tuple before counting;
but the generic path groups raw rows without deduplication, so the claim's own
example input — two rows identical on (Period, Role, Contractor,
PersonIdentifier), fed as an already-normalized table — yields WorkerCount 2,
not 1. -/
theorem c4_counterexample :
    process_data guessNone c4GenericTable = [⟨.s "2024-W24", .s "Operative", .s "Acme", 2⟩] ∧
      (2 : Nat) ≠ 1 := by
  constructor
  · rfl
  · decide

/-- C4 (amended): only the time-tracker path deduplicates by the 4-tuple
before counting — there, appending an exact duplicate row never changes the
aggregate, and a worker duplicated across raw rows is counted once — while the
generic path counts raw rows per group without deduplication. -/
theorem c4_theorem :
    (∀ (l : List K4) (x : K4), x ∈ l → aggTime (l ++ [x]) = aggTime l) ∧
    process_data guessNone c4TimeTable = [⟨.s "2024-W23", .s "Operative", .s "Acme", 1⟩] ∧
    ∀ guess : GuessFn, process_data guess c4GenericTable =
      [⟨.s "2024-W24", .s "Operative", .s "Acme", 2⟩] := by
  refine ⟨aggTime_append_dup, by decide, fun guess => rfl⟩

/-- C4 witness: the deduplication part of the theorem applied at a concrete
duplicated row. -/
theorem c4_witness :
    aggTime ([(Cell.s "2024-W24", Cell.s "Operative", Cell.s "Acme", Cell.s "John_123")] ++
      [(Cell.s "2024-W24", Cell.s "Operative", Cell.s "Acme", Cell.s "John_123")]) =
      aggTime [(Cell.s "2024-W24", Cell.s "Operative", Cell.s "Acme", Cell.s "John_123")] :=
  c4_theorem.1 _ _ (by decide)

/-! ## Claim C5 -/

/-- C5: sort_iso_weeks returns a permutation of exactly the parseable subset
of its input, ordered ascending by the parsed date, with unparseable labels
silently dropped (the model is a total function, so no exception is possible);
in particular sorting ["2023-W01", "not-a-week", "2023-W02"] returns exactly
["2023-W01", "2023-W02"]. -/
theorem c5_theorem : (∀ ws : List String,
    (sort_iso_weeks ws).Perm (ws.filter (fun w => (parse_iso_week w).isSome)) ∧
    (sort_iso_weeks ws).Pairwise
      (fun a b => (parse_iso_week a).getD 0 ≤ (parse_iso_week b).getD 0)) ∧
    sort_iso_weeks ["2023-W01", "not-a-week", "2023-W02"] = ["2023-W01", "2023-W02"] := by
  constructor
  · intro ws
    constructor
    · unfold sort_iso_weeks
      have hp := (sortLe_perm weekPairLe
        ((ws.map (fun w => (w, parse_iso_week w))).filter (fun p => p.2.isSome))).map Prod.fst
      rwa [map_fst_filter_snd] at hp
    · unfold sort_iso_weeks
      rw [List.pairwise_map]
      have htot : ∀ a b : String × Option Nat, weekPairLe a b = true ∨ weekPairLe b a = true := by
        intro a b
        unfold weekPairLe
        rcases Nat.le_total (a.2.getD 0) (b.2.getD 0) with h | h
        · exact Or.inl (Nat.ble_eq.mpr h)
        · exact Or.inr (Nat.ble_eq.mpr h)
      have htrans : ∀ a b c : String × Option Nat,
          weekPairLe a b = true → weekPairLe b c = true → weekPairLe a c = true := by
        intro a b c hab hbc
        unfold weekPairLe at hab hbc ⊢
        exact Nat.ble_eq.mpr (Nat.le_trans (Nat.ble_eq.mp hab) (Nat.ble_eq.mp hbc))
      have hs := pairwise_sortLe htot htrans
        ((ws.map (fun w => (w, parse_iso_week w))).filter (fun p => p.2.isSome))
      refine hs.imp_of_mem ?_
      intro a b ha hb hab
      have ha2 : a.2 = parse_iso_week a.1 :=
        mem_pairs_snd_eq _ ws a (List.mem_of_mem_filter ((sortLe_perm _ _).mem_iff.mp ha))
      have hb2 : b.2 = parse_iso_week b.1 :=
        mem_pairs_snd_eq _ ws b (List.mem_of_mem_filter ((sortLe_perm _ _).mem_iff.mp hb))
      unfold weekPairLe at hab
      rw [ha2, hb2] at hab
      exact Nat.ble_eq.mp hab
  · decide

/-! ## Claim C6 -/

/-- C6: the claim states that an input that is empty after normalization
always yields the single fallback record; but on the generic path a table
with the canonical columns and zero rows produces an empty output, not the
fallback. -/
theorem c6_counterexample :
    process_data guessNone c6EmptyGeneric = [] ∧ ([] : List OutRow) ≠ [fallbackRow] := by
  constructor
  · decide
  · decide

/-- C6 (amended): for a table with zero rows, the time-tracker path emits
exactly the single fallback record (Unknown Week / Worker / Unknown
Contractor / 1), while the generic path has no empty-result check and returns
an empty output. -/
theorem c6_theorem : ∀ (guess : GuessFn) (names : List String),
    process_data guess (mkEmptyDf names) =
      (if timeFormatDetect names = true then [fallbackRow] else []) := by
  intro guess names
  have h0 : EmptyDf (mkEmptyDf names) := emptyDf_mkEmpty names
  have hnm : (mkEmptyDf names).colNames = names := by
    unfold mkEmptyDf Df.colNames
    rw [List.map_map]
    exact List.map_id names
  unfold process_data
  rw [hnm]
  by_cases hdet : timeFormatDetect names = true
  · simp only [hdet, if_true]
    unfold timePath
    exact timeTail_empty
      (durationStep_empty guess (dateStep_empty guess (resolveRoleT_empty
        (resolveContractorT_empty h0))))
  · rw [if_neg hdet, if_neg hdet]
    exact genericPath_empty guess h0

/-! ## Claim C7 -/

/-- C7: the claim asserts that an empty input triggers the synthetic fallback;
but the empty table flows through the generic path without raising and yields
an empty output, not a non-empty synthetic dataset. -/
theorem c7_counterexample :
    process_data guessNone c7EmptyTable = [] ∧
      (process_data guessNone c7EmptyTable).length = 0 := by
  constructor
  · decide
  · decide

/-- C7 (amended): on every input on which the pipeline raises (modelled by the
`none` input, e.g. a non-tabular argument) — but not on an empty tabular input
— the result is the Cartesian product of the fourteen synthetic weeks, four
roles and three contractors, in loop order, with every WorkerCount in [1, 20)
and every Contractor one of Contractor A/B/C. -/
theorem c7_theorem : ∀ (guess : GuessFn) (g : Nat → Nat),
    (process_data_top guess none g).map (fun r => (r.week, r.role, r.contractor)) =
      synthKeys.map (fun k => (Cell.s k.1, Cell.s k.2.1, Cell.s k.2.2)) ∧
    (process_data_top guess none g).length = 168 ∧
    ∀ r ∈ process_data_top guess none g,
      (r.contractor = .s "Contractor A" ∨ r.contractor = .s "Contractor B" ∨
        r.contractor = .s "Contractor C") ∧ 1 ≤ r.count ∧ r.count < 20 := by
  intro guess g
  refine ⟨?_, ?_, ?_⟩
  · show (syntheticRows g).map _ = _
    unfold syntheticRows
    rw [List.map_map]
    have hcomp : ((fun r : OutRow => (r.week, r.role, r.contractor)) ∘
        fun p : Nat × (String × String × String) =>
          (⟨.s p.2.1, .s p.2.2.1, .s p.2.2.2, 1 + g p.1 % 19⟩ : OutRow)) =
        (fun k : String × String × String =>
          ((Cell.s k.1, Cell.s k.2.1, Cell.s k.2.2) : Cell × Cell × Cell)) ∘ Prod.snd := rfl
    rw [hcomp, ← List.map_map, List.enum_map_snd]
  · show (syntheticRows g).length = 168
    unfold syntheticRows
    rw [List.length_map, List.enum_length]
    rfl
  · intro r hr
    rcases List.mem_map.mp hr with ⟨p, hp, rfl⟩
    refine ⟨?_, Nat.le_add_right 1 _, ?_⟩
    · have h2 : p.2 ∈ synthKeys := by
        have hm := List.mem_map_of_mem Prod.snd hp
        rwa [List.enum_map_snd] at hm
      unfold synthKeys at h2
      rcases List.mem_flatMap.mp h2 with ⟨w, _, hw⟩
      rcases List.mem_flatMap.mp hw with ⟨ro, _, hro⟩
      rcases List.mem_map.mp hro with ⟨c, hc, heq⟩
      have h3 : p.2.2.2 = c := by rw [← heq]
      show Cell.s p.2.2.2 = _ ∨ Cell.s p.2.2.2 = _ ∨ Cell.s p.2.2.2 = _
      rw [h3]
      simp only [syntheticContractors, List.mem_cons, List.not_mem_nil, or_false] at hc
      rcases hc with rfl | rfl | rfl
      · exact Or.inl rfl
      · exact Or.inr (Or.inl rfl)
      · exact Or.inr (Or.inr rfl)
    · show 1 + g p.1 % 19 < 20
      have hlt : g p.1 % 19 < 19 := Nat.mod_lt _ (by omega)
      omega

/-- C7 witness: the membership part of the theorem applied at the first
synthetic row of a concrete run. -/
theorem c7_witness :
    ((⟨.s "2023-W01", .s "Manager", .s "Contractor A", 1⟩ : OutRow).contractor =
        .s "Contractor A" ∨
      (⟨.s "2023-W01", .s "Manager", .s "Contractor A", 1⟩ : OutRow).contractor =
        .s "Contractor B" ∨
      (⟨.s "2023-W01", .s "Manager", .s "Contractor A", 1⟩ : OutRow).contractor =
        .s "Contractor C") ∧
    1 ≤ (⟨.s "2023-W01", .s "Manager", .s "Contractor A", 1⟩ : OutRow).count ∧
    (⟨.s "2023-W01", .s "Manager", .s "Contractor A", 1⟩ : OutRow).count < 20 :=
  (c7_theorem guessNone (fun _ => 0)).2.2 ⟨.s "2023-W01", .s "Manager", .s "Contractor A", 1⟩
    (by decide)

/-! ## Claim C8 -/

/-- C8: the claim includes the synthetic-fallback path in the purity
guarantee; but that path reads the ambient NumPy random state, so two runs on
the same (raising) input with different random states disagree. -/
theorem c8_counterexample :
    process_data_top guessNone none (fun _ => 0) ≠
      process_data_top guessNone none (fun _ => 1) := by
  decide

/-- C8 (amended): process_data is a pure function of its input on every run
that does not reach the synthetic fallback: for a tabular input the output is
independent of the random state, so two runs on equal inputs are equal; only
the synthetic path consumes (and advances) the shared random state. -/
theorem c8_theorem : ∀ (guess : GuessFn) (df : Df) (g g2 : Nat → Nat),
    process_data_top guess (some df) g = process_data_top guess (some df) g2 :=
  fun _ _ _ _ => rfl

/-! ## Claim C9 -/

/-- C9: in the time-tracker path, the In/Out duration computation runs only
when no Total Minutes column exists, so when it fails the handler's Total
Minutes fallback is unreachable and Duration becomes the constant 60 for every
row, never a Total-Minutes-derived value. -/
theorem c9_theorem : ∀ (guess : GuessFn) (df : Df),
    df.hasCol "Total Minutes" = false →
    (df.hasCol "In" && df.hasCol "Out") = true →
    tryCalcDuration guess df = none →
    durationVals guess df = List.replicate df.nRows (Cell.num 60) := by
  intro guess df h1 h2 h3
  unfold durationVals
  simp [h1, h2, h3]

/-- C9 witness: the theorem applied to a one-row table whose In/Out values
defeat every date parser. -/
theorem c9_witness :
    durationVals guessNone c9Table = List.replicate c9Table.nRows (Cell.num 60) ∧
      tryCalcDuration guessNone c9Table = none :=
  ⟨c9_theorem guessNone c9Table (by decide) (by decide) (by decide), by decide⟩

/-! ## Claim C10 -/

/-- C10: when the first day/month/year regex triple of a string has an invalid
month value, extract_year_week returns "Unknown Week" (the exception skips the
month/day/year reading entirely), and every non-string input also returns
"Unknown Week"; the model is a total function, so no exception escapes. -/
theorem c10_theorem :
    (∀ (txt : String) (d m : Nat) (ys : List Char),
        searchDMY txt.toList = some (d, m, ys) → m = 0 ∨ 12 < m →
        extract_year_week (.s txt) = "Unknown Week") ∧
    ∀ v : Cell, (∀ w : String, v ≠ .s w) → extract_year_week v = "Unknown Week" := by
  constructor
  · intro txt d m ys h hm
    have hmk : mkDate (digitsValOf ys) m d = none := by
      unfold mkDate
      rw [if_neg]
      rintro ⟨_, _, h3, h4, _⟩
      omega
    unfold extract_year_week
    simp only [h, hmk]
  · intro v hv
    cases v with
    | s w => exact absurd rfl (hv w)
    | num _ => rfl
    | dt _ => rfl
    | dte _ => rfl
    | null => rfl

/-- C10 witness: the theorem applied to the US-format date string
"06/13/2024" and to a non-string cell. -/
theorem c10_witness :
    extract_year_week (.s "06/13/2024") = "Unknown Week" ∧
      extract_year_week Cell.null = "Unknown Week" :=
  ⟨c10_theorem.1 "06/13/2024" 6 13 ['2', '0', '2', '4'] (by decide) (by omega),
   c10_theorem.2 Cell.null (fun _ h => Cell.noConfusion h)⟩

end TT
